import Mathlib

/-!
Verification of the path-validated filesystem access layer of the s3-finder
repository (src/src-tauri/src/lib.rs), via a shallow embedding.

Modelling conventions:
* A filesystem path is a list of components (`FsPath`), the empty list being the
  root `/`.  Rust `Path::starts_with` is component-wise prefix, `Path::join`
  appends a component, `Path::parent` drops the last component (none at the
  root), `Path::file_name` is the last component (none at the root).
* The filesystem is a function from canonical paths to nodes plus a
  modification-time table (the formatted string that chrono would produce).
  A node is either a regular file carrying its bytes (as naturals < 256) or a
  directory carrying the ordered list of child names as `read_dir` yields them.
* The process environment (`Env`) carries the result of `dirs::home_dir()` and
  the behaviour of `Path::canonicalize` for this filesystem (`none` models a
  canonicalization failure: nonexistent or inaccessible path).
* Fallible Rust functions returning `Result<T, String>` become
  `Except String T`; mutating commands additionally return the resulting
  filesystem, the input filesystem when they fail.
* Rust `to_lowercase`/byte-wise string comparison are modelled on code points
  (`Char.toLower`), which agrees with the source on ASCII names; UTF-8 byte
  order coincides with code-point order.
-/

abbrev FsPath := List String

inductive Node where
  | file (content : List Nat)
  | dir (children : List String)
deriving DecidableEq

structure FS where
  node : FsPath → Option Node
  mtime : FsPath → Option String

structure Env where
  home : Option FsPath
  canon : FsPath → Option FsPath

def pathExists (fs : FS) (p : FsPath) : Bool :=
  (fs.node p).isSome

def isDir (fs : FS) (p : FsPath) : Bool :=
  match fs.node p with
  | some (.dir _) => true
  | _ => false

def isFile (fs : FS) (p : FsPath) : Bool :=
  match fs.node p with
  | some (.file _) => true
  | _ => false

/-- `metadata.len()` for files; directory entries report `size = None`. -/
def sizeOf (fs : FS) (p : FsPath) : Option Nat :=
  match fs.node p with
  | some (.file content) => some content.length
  | _ => none

def childrenOf (fs : FS) (p : FsPath) : List String :=
  match fs.node p with
  | some (.dir children) => children
  | _ => []

/-- Rendering of a path, as `to_string_lossy` produces it. -/
def pathStr (p : FsPath) : String :=
  "/" ++ String.intercalate "/" p

/-- `Path::parent`: drop the last component; the root has no parent. -/
def parentOf : FsPath → Option FsPath
  | [] => none
  | ps => some ps.dropLast

/-- `Path::file_name`: the last component; the root has none. -/
def fileNameOf (p : FsPath) : Option String :=
  p.getLast?

/-- The fixed allow-list of read-only system directories from `validate_path`. -/
def allowedSystemPaths : List FsPath :=
  [["Applications"], ["System", "Applications"], ["usr", "local"], ["opt"]]

/-- `validate_path`: canonicalize, then accept the home directory and its
descendants, then the fixed system allow-list, else deny. -/
def validate_path (env : Env) (path : FsPath) : Except String FsPath :=
  match env.canon path with
  | none => .error "Invalid or inaccessible path"
  | some canonical =>
    match env.home with
    | none => .error "Cannot determine home directory"
    | some home_dir =>
      if home_dir.isPrefixOf canonical then .ok canonical
      else if allowedSystemPaths.any (fun a => a.isPrefixOf canonical) then .ok canonical
      else .error "Access denied: Path is outside allowed directories"

/-- `validate_write_path`: read validation plus the home-directory restriction. -/
def validate_write_path (env : Env) (path : FsPath) : Except String FsPath :=
  match validate_path env path with
  | .error e => .error e
  | .ok canonical =>
    match env.home with
    | none => .error "Cannot determine home directory"
    | some home_dir =>
      if !home_dir.isPrefixOf canonical then
        .error "Write access denied: Only home directory is writable"
      else .ok canonical

example : validate_path ⟨some ["home", "u"], fun p => some p⟩ ["home", "u", "docs"]
    = .ok ["home", "u", "docs"] := rfl

example : validate_path ⟨some ["home", "u"], fun p => some p⟩ ["opt", "tool"]
    = .ok ["opt", "tool"] := rfl

example : validate_write_path ⟨some ["home", "u"], fun p => some p⟩ ["opt", "tool"]
    = .error "Write access denied: Only home directory is writable" := rfl

example : validate_path ⟨some ["home", "u"], fun p => some p⟩ ["etc"]
    = .error "Access denied: Path is outside allowed directories" := rfl

/-! String utilities modelling the Rust standard library operations used. -/

/-- Rust `str::to_lowercase`, on code points (agrees with the source on ASCII). -/
def lowerChars (s : List Char) : List Char :=
  s.map Char.toLower

def lowerStr (s : String) : String :=
  String.mk (lowerChars s.data)

/-- Prefix test on character lists (structured so that an empty needle
succeeds without inspecting the haystack). -/
def isPrefixChars (needle hay : List Char) : Bool :=
  match needle with
  | [] => true
  | a :: as =>
    match hay with
    | [] => false
    | b :: bs => a == b && isPrefixChars as bs

/-- Rust `str::trim`: drop whitespace from both ends (code-point whitespace,
which agrees with the source on ASCII). -/
def trimChars (s : List Char) : List Char :=
  ((s.dropWhile Char.isWhitespace).reverse.dropWhile Char.isWhitespace).reverse

/-- Rust `str::contains(&str)`: substring containment. -/
def containsSub (hay needle : List Char) : Bool :=
  match hay with
  | [] => isPrefixChars needle []
  | _ :: t => isPrefixChars needle hay || containsSub t needle

/-- Rust `str::split(char)`: the list of (possibly empty) fragments between
occurrences of the separator; never empty. -/
def splitChar (sep : Char) : List Char → List (List Char)
  | [] => [[]]
  | a :: rest =>
    if a = sep then [] :: splitChar sep rest
    else
      match splitChar sep rest with
      | g :: gs => (a :: g) :: gs
      | [] => [[a]]

/-- `filename.split('.').last().unwrap_or("").to_lowercase()`, used by both
`preview_file` and `get_file_icon`. -/
def extensionOf (filename : String) : String :=
  String.mk (lowerChars ((splitChar '.' filename.data).getLastD []))

example : extensionOf "a.TXT" = "txt" := rfl
example : extensionOf "rs" = "rs" := rfl
example : extensionOf ".bashrc" = "bashrc" := rfl
example : extensionOf "archive.tar.gz" = "gz" := rfl

/-- The extension-to-icon table of `get_file_icon`. -/
def get_file_icon (filename : String) : String :=
  match extensionOf filename with
  | "txt" | "md" | "rtf" => "document-text"
  | "pdf" => "document"
  | "doc" | "docx" => "document"
  | "xls" | "xlsx" => "table"
  | "ppt" | "pptx" => "presentation"
  | "jpg" | "jpeg" | "png" | "gif" | "bmp" | "svg" => "photo"
  | "mp4" | "avi" | "mov" | "wmv" | "flv" => "film"
  | "mp3" | "wav" | "flac" | "aac" => "musical-note"
  | "zip" | "rar" | "7z" | "tar" | "gz" => "archive-box"
  | "exe" | "app" | "dmg" => "cog"
  | "html" | "css" | "js" | "ts" | "json" => "code-bracket"
  | "rs" | "py" | "java" | "cpp" | "c" => "code-bracket"
  | _ => "document"

/-- The extension-to-category table of `get_file_type`. -/
def get_file_type (extension : String) : String :=
  match extension with
  | "txt" | "md" | "rtf" | "log" | "csv" | "xml" | "yaml" | "yml" | "toml"
  | "ini" | "conf" => "text"
  | "html" | "css" | "js" | "ts" | "json" | "jsx" | "tsx" => "text"
  | "rs" | "py" | "java" | "cpp" | "c" | "h" | "hpp" | "go" | "php" | "rb"
  | "swift" => "text"
  | "sh" | "bash" | "zsh" | "fish" | "ps1" | "bat" | "cmd" => "text"
  | "jpg" | "jpeg" | "png" | "gif" | "bmp" | "webp" | "svg" | "ico" => "image"
  | "tiff" | "tif" | "raw" | "cr2" | "nef" | "arw" => "image"
  | _ => "unsupported"

/-! The result records returned across the command boundary. -/

structure FileItem where
  name : String
  path : String
  is_dir : Bool
  size : Option Nat
  modified : Option String
  icon : String
deriving DecidableEq

structure DirectoryContents where
  current_path : String
  parent_path : Option String
  items : List FileItem
deriving DecidableEq

structure FilePreview where
  file_type : String
  content : String
  size : Nat
  encoding : String
deriving DecidableEq

/-- The `FileItem` built for child `name` of directory `dir`, as constructed
identically inside `read_directory` and `search_directory_recursive`. -/
def mkItem (fs : FS) (dir : FsPath) (name : String) : FileItem :=
  let childPath := dir ++ [name]
  let is_dir := isDir fs childPath
  { name := name
    path := pathStr childPath
    is_dir := is_dir
    size := sizeOf fs childPath
    modified := fs.mtime childPath
    icon := if is_dir then "folder" else get_file_icon name }

/-! The sort shared by `read_directory` and `search_files`: directories first,
then case-insensitive name order, via a stable merge sort (Rust `sort_by`). -/

/-- The case-insensitive comparison key of a name: lowercased code points. -/
def nameKey (s : String) : List Nat :=
  s.data.map (fun c => (Char.toLower c).toNat)

/-- Lexicographic comparison of code-point lists, the order Rust
`String::cmp` induces on the lowercased names (UTF-8 byte order coincides
with code-point order). -/
def cmpNatList : List Nat → List Nat → Ordering
  | [], [] => .eq
  | [], _ :: _ => .lt
  | _ :: _, [] => .gt
  | a :: as, b :: bs =>
    if a < b then .lt else if b < a then .gt else cmpNatList as bs

/-- The comparator passed to `sort_by`. -/
def entryCmp (a b : FileItem) : Ordering :=
  match a.is_dir, b.is_dir with
  | true, false => .lt
  | false, true => .gt
  | _, _ => cmpNatList (nameKey a.name) (nameKey b.name)

def entryLE (a b : FileItem) : Bool :=
  match entryCmp a b with
  | .gt => false
  | _ => true

/-- The comparator as a decidable relation. -/
def entryRel (a b : FileItem) : Prop := entryLE a b = true

instance : DecidableRel entryRel := fun a b => instDecidableEqBool (entryLE a b) true

/-- The sort applied by `sort_by`: Rust uses a stable sort with the comparator
above; it is modelled by Mathlib's stable insertion sort over `entryRel`. -/
def sortEntries (l : List FileItem) : List FileItem :=
  List.insertionSort entryRel l

/-! Effects of the mutating primitives on the filesystem model.  No claim
inspects the post-state of a successful mutation; these definitions model the
happy-path effect of `fs::create_dir`, `fs::remove_dir_all`/`fs::remove_file`,
`fs::rename` and `fs::copy`/`copy_dir_recursive` on the tree. -/

def removeChildEntry (n : Option Node) (name : String) : Option Node :=
  match n with
  | some (.dir ch) => some (.dir (ch.filter (fun c => c ≠ name)))
  | other => other

def addChildEntry (n : Option Node) (name : String) : Option Node :=
  match n with
  | some (.dir ch) => some (.dir (ch ++ [name]))
  | other => other

/-- `fs::create_dir(parent.join(name))`: one new empty directory node,
registered in the parent's child list. -/
def fsCreateDir (fs : FS) (parent : FsPath) (name : String) : FS :=
  { node := fun p =>
      if p = parent ++ [name] then some (.dir [])
      else if p = parent then addChildEntry (fs.node parent) name
      else fs.node p
    mtime := fs.mtime }

/-- Removal of the subtree rooted at `target`, deregistered from its parent. -/
def fsRemove (fs : FS) (target : FsPath) : FS :=
  { node := fun p =>
      if target.isPrefixOf p then none
      else if some p = parentOf target then
        removeChildEntry (fs.node p) ((fileNameOf target).getD "")
      else fs.node p
    mtime := fs.mtime }

/-- `fs::rename(src, dst)`: the subtree moves wholesale; the parents' child
lists are adjusted. -/
def fsRename (fs : FS) (src dst : FsPath) : FS :=
  { node := fun p =>
      let moved :=
        if dst.isPrefixOf p then fs.node (src ++ p.drop dst.length)
        else if src.isPrefixOf p then none
        else fs.node p
      let moved :=
        if some p = parentOf src then removeChildEntry moved ((fileNameOf src).getD "")
        else moved
      if some p = parentOf dst then addChildEntry moved ((fileNameOf dst).getD "")
      else moved
    mtime := fs.mtime }

/-- `fs::copy` / `copy_dir_recursive`: the subtree is duplicated at `dst`. -/
def fsCopy (fs : FS) (src dst : FsPath) : FS :=
  { node := fun p =>
      let copied :=
        if dst.isPrefixOf p then fs.node (src ++ p.drop dst.length)
        else fs.node p
      if some p = parentOf dst then addChildEntry copied ((fileNameOf dst).getD "")
      else copied
    mtime := fs.mtime }

/-! The command entry points. -/

/-- `read_directory`: validated listing of one directory, sorted. -/
def read_directory (env : Env) (fs : FS) (path : FsPath) :
    Except String DirectoryContents :=
  match validate_path env path with
  | .error e => .error e
  | .ok dir_path =>
    if !isDir fs dir_path then .error "Path is not a directory"
    else
      let items := (childrenOf fs dir_path).map (mkItem fs dir_path)
      .ok { current_path := pathStr dir_path
            parent_path := (parentOf dir_path).map pathStr
            items := sortEntries items }

def get_home_directory (env : Env) : Except String String :=
  match env.home with
  | some path => .ok (pathStr path)
  | none => .error "Could not determine home directory"

/-- `create_folder`: write-validates the parent, rejects names that are empty,
contain a separator, or are `.`/`..`, then creates one directory. -/
def create_folder (env : Env) (fs : FS) (path : FsPath) (name : String) :
    Except String String × FS :=
  match validate_write_path env path with
  | .error e => (.error e, fs)
  | .ok parent_path =>
    if name.isEmpty || name.data.contains '/' || name.data.contains '\\'
        || name == "." || name == ".." then
      (.error "Invalid folder name", fs)
    else
      let new_folder_path := parent_path ++ [name]
      if pathExists fs new_folder_path then (.error "Folder already exists", fs)
      else (.ok (pathStr new_folder_path), fsCreateDir fs parent_path name)

/-- `delete_item`: write-validates, then removes the file or directory tree. -/
def delete_item (env : Env) (fs : FS) (path : FsPath) : Except String Unit × FS :=
  match validate_write_path env path with
  | .error e => (.error e, fs)
  | .ok item_path => (.ok (), fsRemove fs item_path)

/-- `rename_item`: write-validates the old path, applies the same name checks
as `create_folder`, refuses an existing sibling, then renames in place. -/
def rename_item (env : Env) (fs : FS) (old_path : FsPath) (new_name : String) :
    Except String String × FS :=
  match validate_write_path env old_path with
  | .error e => (.error e, fs)
  | .ok old_item_path =>
    if new_name.isEmpty || new_name.data.contains '/' || new_name.data.contains '\\'
        || new_name == "." || new_name == ".." then
      (.error "Invalid file name", fs)
    else
      match parentOf old_item_path with
      | none => (.error "Cannot determine parent directory", fs)
      | some parent =>
        let new_item_path := parent ++ [new_name]
        if pathExists fs new_item_path then
          (.error "An item with this name already exists", fs)
        else (.ok (pathStr new_item_path), fsRename fs old_item_path new_item_path)

/-- `copy_item`: existence checks only — the source performs no trust-boundary
validation here; `env` is never consulted. -/
def copy_item (env : Env) (fs : FS) (source_path dest_dir : FsPath) :
    Except String String × FS :=
  if !pathExists fs source_path then (.error "Source item does not exist", fs)
  else if !pathExists fs dest_dir || !isDir fs dest_dir then
    (.error "Destination directory does not exist", fs)
  else
    match fileNameOf source_path with
    | none => (.error "Cannot determine file name", fs)
    | some file_name =>
      let dest_path := dest_dir ++ [file_name]
      if pathExists fs dest_path then
        (.error "An item with this name already exists in destination", fs)
      else (.ok (pathStr dest_path), fsCopy fs source_path dest_path)

/-- `move_item`: same checks as `copy_item`, then a rename; `env` is never
consulted. -/
def move_item (env : Env) (fs : FS) (source_path dest_dir : FsPath) :
    Except String String × FS :=
  if !pathExists fs source_path then (.error "Source item does not exist", fs)
  else if !pathExists fs dest_dir || !isDir fs dest_dir then
    (.error "Destination directory does not exist", fs)
  else
    match fileNameOf source_path with
    | none => (.error "Cannot determine file name", fs)
    | some file_name =>
      let dest_path := dest_dir ++ [file_name]
      if pathExists fs dest_path then
        (.error "An item with this name already exists in destination", fs)
      else (.ok (pathStr dest_path), fsRename fs source_path dest_path)

/-- `get_item_info`: no path validation at all — only an existence check on the
raw caller-supplied path, then metadata. -/
def get_item_info (env : Env) (fs : FS) (path : FsPath) : Except String FileItem :=
  if !pathExists fs path then .error "Item does not exist"
  else
    match fs.node path with
    | none => .error "Failed to get metadata"
    | some node =>
      let name := (fileNameOf path).getD "Unknown"
      let is_dir := match node with | .dir _ => true | .file _ => false
      .ok { name := name
            path := pathStr path
            is_dir := is_dir
            size := match node with | .file content => some content.length | .dir _ => none
            modified := fs.mtime path
            icon := if is_dir then "folder" else get_file_icon name }

/-- The loop body of `search_directory_recursive`, iterating the children
`names` of directory `dir` in order.  A matching child is always appended to
the accumulated results; descent (via `descend`, the recursive call) into a
child directory happens only while fewer than 1000 results have accumulated. -/
def searchDirStep (fs : FS) (query : List Char)
    (descend : FsPath → List FileItem → List FileItem) (dir : FsPath) :
    List String → List FileItem → List FileItem
  | [], results => results
  | name :: rest, results =>
    let path := dir ++ [name]
    let results1 :=
      if containsSub (lowerChars name.data) query then results ++ [mkItem fs dir name]
      else results
    let results2 :=
      if isDir fs path then
        if results1.length < 1000 then descend path results1 else results1
      else results1
    searchDirStep fs query descend dir rest results2

/-- `search_directory_recursive`.  `fuel` bounds the recursion depth (the Rust
recursion terminates because the directory tree is finite; any fuel at least
the tree depth gives the same result); an unreadable or non-directory `dir`
contributes nothing, as `read_dir` failures are silently ignored. -/
def searchGo (fs : FS) (query : List Char) : Nat → FsPath → List FileItem → List FileItem
  | 0, _, results => results
  | fuel + 1, dir, results =>
    searchDirStep fs query (searchGo fs query fuel) dir (childrenOf fs dir) results

/-- `search_files`: validated recursive filename search, results sorted like a
listing. -/
def search_files (env : Env) (fs : FS) (fuel : Nat) (directory : FsPath)
    (query : String) : Except String (List FileItem) :=
  match validate_path env directory with
  | .error e => .error e
  | .ok dir_path =>
    if !isDir fs dir_path then .error "Path is not a directory"
    else if (trimChars query.data).isEmpty then .error "Search query cannot be empty"
    else
      let query_lower := lowerChars query.data
      let results := searchGo fs query_lower fuel dir_path []
      .ok (sortEntries results)

/-! `preview_file` and its byte-level helpers. -/

def isContByte (b : Nat) : Bool := 128 ≤ b && b ≤ 191

/-- One UTF-8 scalar value starting with leading byte `b`, with the validation
Rust performs: `none` on an invalid leading byte, missing or malformed
continuation bytes, overlong encoding, or surrogate; otherwise the decoded
character and the remaining bytes. -/
def utf8DecodeOne (b : Nat) (rest : List Nat) : Option (Char × List Nat) :=
  if b < 128 then some (Char.ofNat b, rest)
  else if 194 ≤ b && b ≤ 223 then
    match rest with
    | c1 :: rest2 =>
      if isContByte c1 then
        some (Char.ofNat ((b - 192) * 64 + (c1 - 128)), rest2)
      else none
    | [] => none
  else if 224 ≤ b && b ≤ 239 then
    match rest with
    | c1 :: c2 :: rest2 =>
      if isContByte c1 && isContByte c2
          && (!(b == 224) || 160 ≤ c1) && (!(b == 237) || c1 ≤ 159) then
        some (Char.ofNat ((b - 224) * 4096 + (c1 - 128) * 64 + (c2 - 128)), rest2)
      else none
    | _ => none
  else if 240 ≤ b && b ≤ 244 then
    match rest with
    | c1 :: c2 :: c3 :: rest2 =>
      if isContByte c1 && isContByte c2 && isContByte c3
          && (!(b == 240) || 144 ≤ c1) && (!(b == 244) || c1 ≤ 143) then
        some (Char.ofNat
          ((b - 240) * 262144 + (c1 - 128) * 4096 + (c2 - 128) * 64 + (c3 - 128)), rest2)
      else none
    | _ => none
  else none

/-- The decoding loop; `fuel` only bounds the number of decoded characters and
is spent one unit per character, so any fuel at least the byte count gives the
full decoding. -/
def utf8DecodeLoop : Nat → List Nat → Option (List Char)
  | _, [] => some []
  | 0, _ :: _ => none
  | fuel + 1, b :: rest =>
    match utf8DecodeOne b rest with
    | none => none
    | some (c, rest2) => (utf8DecodeLoop fuel rest2).map (fun cs => c :: cs)

/-- UTF-8 decoding of a whole byte string, as `fs::read_to_string` validates
it (each decoded character consumes at least one byte, so `length` fuel always
suffices). -/
def utf8DecodeChars (bytes : List Nat) : Option (List Char) :=
  utf8DecodeLoop bytes.length bytes

def hexDigit (n : Nat) : Char :=
  if n < 10 then Char.ofNat (48 + n) else Char.ofNat (87 + n)

/-- Rust `format!` with the 02x spec, for a byte. -/
def hexByte (b : Nat) : String :=
  String.mk [hexDigit (b / 16), hexDigit (b % 16)]

/-- Lowercase hex byte pairs joined by single spaces. -/
def hexDump (bytes : List Nat) : String :=
  String.intercalate " " (bytes.map hexByte)

example : hexDump [255, 0, 171] = "ff 00 ab" := rfl

def base64Char (n : Nat) : Char :=
  if n < 26 then Char.ofNat (65 + n)
  else if n < 52 then Char.ofNat (97 + (n - 26))
  else if n < 62 then Char.ofNat (48 + (n - 52))
  else if n == 62 then '+'
  else '/'

/-- Standard base64 with padding, as `general_purpose::STANDARD.encode`. -/
def base64Encode : List Nat → String
  | [] => ""
  | [a] =>
    String.mk [base64Char (a / 4), base64Char (a % 4 * 16), '=', '=']
  | [a, b] =>
    String.mk [base64Char (a / 4), base64Char (a % 4 * 16 + b / 16),
               base64Char (b % 16 * 4), '=']
  | a :: b :: c :: rest =>
    String.mk [base64Char (a / 4), base64Char (a % 4 * 16 + b / 16),
               base64Char (b % 16 * 4 + c / 64), base64Char (c % 64)]
      ++ base64Encode rest

/-- `preview_file`: validated, regular-file-only, 10 MiB-capped preview.  The
size gate sits before any content examination; the extension table routes to
UTF-8 text (with hex fallback on decode failure), base64 images, or an
unsupported-type error. -/
def preview_file (env : Env) (fs : FS) (path : FsPath) : Except String FilePreview :=
  match validate_path env path with
  | .error e => .error e
  | .ok file_path =>
    match fs.node file_path with
    | some (.file bytes) =>
      let size := bytes.length
      if size > 10 * 1024 * 1024 then .error "File too large for preview (max 10MB)"
      else
        let filename := (fileNameOf file_path).getD "Unknown"
        let extension := extensionOf filename
        let file_type := get_file_type extension
        if file_type = "text" then
          match utf8DecodeChars bytes with
          | some content =>
            .ok { file_type := file_type, content := String.mk content, size := size,
                  encoding := "text" }
          | none =>
            .ok { file_type := "binary", content := hexDump (bytes.take 1024), size := size,
                  encoding := "hex" }
        else if file_type = "image" then
          .ok { file_type := file_type, content := base64Encode bytes, size := size,
                encoding := "base64" }
        else .error "File type not supported for preview"
    | _ => .error "Path is not a file"

/-! Theorems about the embedded operations. -/

/-- C2: a path whose canonical form lies under a system allow-list root but
not under the home directory read-validates to its canonical form while write
validation fails with the access-denied message; and whenever write validation
succeeds, read validation succeeds with the same canonical result. -/
theorem system_paths_readable_not_writable :
    (∀ (env : Env) (p c h : FsPath), env.canon p = some c → env.home = some h →
      h.isPrefixOf c = false →
      (allowedSystemPaths.any fun a => a.isPrefixOf c) = true →
      validate_path env p = .ok c ∧
        validate_write_path env p =
          .error "Write access denied: Only home directory is writable") ∧
    (∀ (env : Env) (p c : FsPath), validate_write_path env p = .ok c →
      validate_path env p = .ok c) := by
  constructor
  · intro env p c h hcanon hhome hnp hallow
    have hv : validate_path env p = .ok c := by
      simp [validate_path, hcanon, hhome, hnp, hallow]
    exact ⟨hv, by simp [validate_write_path, hv, hhome, hnp]⟩
  · intro env p c hw
    unfold validate_write_path at hw
    cases hv : validate_path env p with
    | error e => rw [hv] at hw; exact absurd hw (by simp)
    | ok c2 =>
      rw [hv] at hw
      cases hh : env.home with
      | none => rw [hh] at hw; exact absurd hw (by simp)
      | some hd =>
        rw [hh] at hw
        by_cases hp : hd.isPrefixOf c2
        · simp [hp] at hw
          rw [hw]
        · simp [hp] at hw

/-- Witness for C2 at the concrete path `/opt/x` with home `/home/u`. -/
theorem system_paths_readable_not_writable_witness :
    (["home", "u"] : FsPath).isPrefixOf ["opt", "x"] = false ∧
    (allowedSystemPaths.any fun a => a.isPrefixOf (["opt", "x"] : FsPath)) = true ∧
    validate_path ⟨some ["home", "u"], fun p => some p⟩ ["opt", "x"] = .ok ["opt", "x"] ∧
    validate_write_path ⟨some ["home", "u"], fun p => some p⟩ ["opt", "x"]
      = .error "Write access denied: Only home directory is writable" := by
  refine ⟨by decide, by decide, ?_, ?_⟩
  · exact (system_paths_readable_not_writable.1 ⟨some ["home", "u"], fun p => some p⟩
      ["opt", "x"] ["opt", "x"] ["home", "u"] rfl rfl (by decide) (by decide)).1
  · exact (system_paths_readable_not_writable.1 ⟨some ["home", "u"], fun p => some p⟩
      ["opt", "x"] ["opt", "x"] ["home", "u"] rfl rfl (by decide) (by decide)).2

/-- C5: with a write-valid parent, `create_folder` and `rename_item` reject a
name that is empty, contains a path separator, or equals "." or "..", with the
invalid-name error and an unchanged filesystem. -/
theorem invalid_name_rejected :
    ∀ (env : Env) (fs : FS) (p pc : FsPath) (name : String),
      validate_write_path env p = .ok pc →
      (name = "" ∨ name.data.contains '/' = true ∨ name.data.contains '\\' = true
        ∨ name = "." ∨ name = "..") →
      create_folder env fs p name = (.error "Invalid folder name", fs) ∧
      rename_item env fs p name = (.error "Invalid file name", fs) := by
  intro env fs p pc name hv hbad
  have hcond : (name.isEmpty || name.data.contains '/' || name.data.contains '\\'
      || name == "." || name == "..") = true := by
    rcases hbad with h | h | h | h | h
    · subst h; decide
    · simp [List.elem_iff.mp h]
    · simp [List.elem_iff.mp h]
    · subst h; decide
    · subst h; decide
  exact ⟨by unfold create_folder; rw [hv]; exact if_pos hcond,
         by unfold rename_item; rw [hv]; exact if_pos hcond⟩

def envStd : Env := ⟨some ["home", "u"], fun p => some p⟩

def fs5 : FS :=
  ⟨fun p => if p = ["home", "u"] then some (.dir []) else none, fun _ => none⟩

/-- Witness for C5: `create_folder(/home/u, "../evil")` fails with the
invalid-name error and does not change the filesystem. -/
theorem invalid_name_rejected_witness :
    validate_write_path envStd ["home", "u"] = .ok ["home", "u"] ∧
    ("../evil").data.contains '/' = true ∧
    create_folder envStd fs5 ["home", "u"] "../evil" = (.error "Invalid folder name", fs5) ∧
    rename_item envStd fs5 ["home", "u"] "../evil" = (.error "Invalid file name", fs5) := by
  refine ⟨rfl, by decide, ?_, ?_⟩
  · exact (invalid_name_rejected envStd fs5 ["home", "u"] ["home", "u"] "../evil" rfl
      (Or.inr (Or.inl (by decide)))).1
  · exact (invalid_name_rejected envStd fs5 ["home", "u"] ["home", "u"] "../evil" rfl
      (Or.inr (Or.inl (by decide)))).2

/-- C6: renaming onto an existing sibling fails with the already-exists error
and returns the filesystem unchanged. -/
theorem rename_existing_sibling_rejected :
    ∀ (env : Env) (fs : FS) (old oldc par : FsPath) (new_name : String),
      validate_write_path env old = .ok oldc →
      (new_name.isEmpty || new_name.data.contains '/' || new_name.data.contains '\\'
        || new_name == "." || new_name == "..") = false →
      parentOf oldc = some par →
      pathExists fs (par ++ [new_name]) = true →
      rename_item env fs old new_name
        = (.error "An item with this name already exists", fs) := by
  intro env fs old oldc par new_name hv hname hpar hex
  simp at hname
  simp [rename_item, hv, hname, hpar, hex]

def fs6 : FS :=
  ⟨fun p =>
    if p = ["home", "u"] then some (.dir ["a.txt", "b.txt"])
    else if p = ["home", "u", "a.txt"] then some (.file [97])
    else if p = ["home", "u", "b.txt"] then some (.file [98])
    else none,
   fun _ => none⟩

/-- Witness for C6: renaming `/home/u/a.txt` to the existing sibling name
`b.txt` fails with the already-exists error, filesystem unchanged. -/
theorem rename_existing_sibling_rejected_witness :
    validate_write_path envStd ["home", "u", "a.txt"] = .ok ["home", "u", "a.txt"] ∧
    pathExists fs6 ["home", "u", "b.txt"] = true ∧
    rename_item envStd fs6 ["home", "u", "a.txt"] "b.txt"
      = (.error "An item with this name already exists", fs6) := by
  refine ⟨rfl, by decide, ?_⟩
  exact rename_existing_sibling_rejected envStd fs6 ["home", "u", "a.txt"]
    ["home", "u", "a.txt"] ["home", "u"] "b.txt" rfl (by decide) (by decide) (by decide)

/-- C3: `copy_item` and `move_item` apply only the three existence checks and
never consult the validator or the environment: under those checks they
proceed, for every environment, so in particular for sources and destinations
outside the home directory. -/
theorem copy_move_only_existence_checks :
    ∀ (env env2 : Env) (fs : FS) (src dst : FsPath) (n : String),
      pathExists fs src = true →
      pathExists fs dst = true → isDir fs dst = true →
      fileNameOf src = some n →
      pathExists fs (dst ++ [n]) = false →
      copy_item env fs src dst = (.ok (pathStr (dst ++ [n])), fsCopy fs src (dst ++ [n])) ∧
      move_item env fs src dst = (.ok (pathStr (dst ++ [n])), fsRename fs src (dst ++ [n])) ∧
      copy_item env fs src dst = copy_item env2 fs src dst ∧
      move_item env fs src dst = move_item env2 fs src dst := by
  intro env env2 fs src dst n h1 h2 h3 hn h4
  refine ⟨?_, ?_, rfl, rfl⟩ <;> simp [copy_item, move_item, h1, h2, h3, hn, h4]

def fs3 : FS :=
  ⟨fun p =>
    if p = ["srv"] then some (.dir ["data.bin"])
    else if p = ["srv", "data.bin"] then some (.file [1, 2])
    else if p = ["tmp"] then some (.dir [])
    else none,
   fun _ => none⟩

/-- Witness for C3: copying and moving `/srv/data.bin` (outside home, outside
the allow-list, write validation would deny it) into `/tmp` both proceed. -/
theorem copy_move_only_existence_checks_witness :
    validate_write_path envStd ["srv", "data.bin"]
      = .error "Access denied: Path is outside allowed directories" ∧
    validate_write_path envStd ["tmp"]
      = .error "Access denied: Path is outside allowed directories" ∧
    copy_item envStd fs3 ["srv", "data.bin"] ["tmp"]
      = (.ok (pathStr (["tmp"] ++ ["data.bin"])),
         fsCopy fs3 ["srv", "data.bin"] (["tmp"] ++ ["data.bin"])) ∧
    move_item envStd fs3 ["srv", "data.bin"] ["tmp"]
      = (.ok (pathStr (["tmp"] ++ ["data.bin"])),
         fsRename fs3 ["srv", "data.bin"] (["tmp"] ++ ["data.bin"])) := by
  refine ⟨rfl, rfl, ?_, ?_⟩
  · exact (copy_move_only_existence_checks envStd envStd fs3 ["srv", "data.bin"] ["tmp"]
      "data.bin" (by decide) (by decide) (by decide) (by decide) (by decide)).1
  · exact (copy_move_only_existence_checks envStd envStd fs3 ["srv", "data.bin"] ["tmp"]
      "data.bin" (by decide) (by decide) (by decide) (by decide) (by decide)).2.1

/-- A read-validation denial happens exactly under the stated conditions. -/
theorem validate_path_denied (env : Env) (p c h : FsPath)
    (hcanon : env.canon p = some c) (hhome : env.home = some h)
    (hnp : h.isPrefixOf c = false)
    (hallow : (allowedSystemPaths.any fun a => a.isPrefixOf c) = false) :
    validate_path env p = .error "Access denied: Path is outside allowed directories" := by
  simp [validate_path, hcanon, hhome, hnp, hallow]

def fs1 : FS :=
  ⟨fun p =>
    if p = ["etc"] then some (.dir ["passwd"])
    else if p = ["etc", "passwd"] then some (.file [114])
    else none,
   fun _ => none⟩

/-- Counterexample to C1 as stated: `/etc/passwd` is outside the home
directory and outside the system allow-list, the Path Validator denies it, yet
`get_item_info` performs its filesystem operation and returns the item rather
than an error: `get_item_info` never calls the validator. -/
theorem get_item_info_succeeds_outside_allowlist :
    validate_path envStd ["etc", "passwd"]
      = .error "Access denied: Path is outside allowed directories" ∧
    get_item_info envStd fs1 ["etc", "passwd"]
      = .ok { name := "passwd", path := "/etc/passwd", is_dir := false,
              size := some 1, modified := none, icon := "document" } :=
  ⟨rfl, rfl⟩

/-- C1 amended: of the path-taking entry points, `read_directory`,
`search_files`, `preview_file`, `create_folder`, `delete_item` and
`rename_item` all pass the caller-supplied path through the Path Validator and
return an error on any path outside the home directory and the fixed system
allow-list; `get_item_info` is the exception (besides `copy_item` and
`move_item`, covered separately): it validates nothing and succeeds on any
existing path. -/
theorem validated_ops_reject_outside_allowlist :
    ∀ (env : Env) (fs : FS) (p c h : FsPath) (fuel : Nat) (q name : String),
      env.canon p = some c → env.home = some h →
      h.isPrefixOf c = false →
      (allowedSystemPaths.any fun a => a.isPrefixOf c) = false →
      read_directory env fs p
        = .error "Access denied: Path is outside allowed directories" ∧
      search_files env fs fuel p q
        = .error "Access denied: Path is outside allowed directories" ∧
      preview_file env fs p
        = .error "Access denied: Path is outside allowed directories" ∧
      create_folder env fs p name
        = (.error "Access denied: Path is outside allowed directories", fs) ∧
      delete_item env fs p
        = (.error "Access denied: Path is outside allowed directories", fs) ∧
      rename_item env fs p name
        = (.error "Access denied: Path is outside allowed directories", fs) ∧
      (pathExists fs p = true → ∃ item, get_item_info env fs p = .ok item) := by
  intro env fs p c h fuel q name hcanon hhome hnp hallow
  have hv := validate_path_denied env p c h hcanon hhome hnp hallow
  have hw : validate_write_path env p
      = .error "Access denied: Path is outside allowed directories" := by
    simp [validate_write_path, hv]
  refine ⟨by simp [read_directory, hv], by simp [search_files, hv],
    by simp [preview_file, hv], by simp [create_folder, hw],
    by simp [delete_item, hw], by simp [rename_item, hw], ?_⟩
  intro hex
  cases hnode : fs.node p with
  | none => simp [pathExists, hnode] at hex
  | some node =>
    refine ⟨{ name := (fileNameOf p).getD "Unknown"
              path := pathStr p
              is_dir := match node with | .dir _ => true | .file _ => false
              size := match node with | .file content => some content.length | .dir _ => none
              modified := fs.mtime p
              icon := if (match node with | .dir _ => true | .file _ => false) then "folder"
                      else get_file_icon ((fileNameOf p).getD "Unknown") }, ?_⟩
    simp only [get_item_info, pathExists, hnode, Option.isSome_some, Bool.not_true,
      Bool.false_eq_true, if_false]
    cases node <;> rfl

/-- Witness for the amended C1 at `/etc/passwd`: all six validating entry
points reject it, while it exists and `get_item_info` succeeds on it. -/
theorem validated_ops_reject_outside_allowlist_witness :
    ((["home", "u"] : FsPath).isPrefixOf ["etc", "passwd"] = false ∧
     (allowedSystemPaths.any fun a => a.isPrefixOf (["etc", "passwd"] : FsPath)) = false ∧
     pathExists fs1 ["etc", "passwd"] = true) ∧
    (read_directory envStd fs1 ["etc", "passwd"]
        = .error "Access denied: Path is outside allowed directories" ∧
      search_files envStd fs1 1 ["etc", "passwd"] "x"
        = .error "Access denied: Path is outside allowed directories" ∧
      preview_file envStd fs1 ["etc", "passwd"]
        = .error "Access denied: Path is outside allowed directories" ∧
      create_folder envStd fs1 ["etc", "passwd"] "n"
        = (.error "Access denied: Path is outside allowed directories", fs1) ∧
      delete_item envStd fs1 ["etc", "passwd"]
        = (.error "Access denied: Path is outside allowed directories", fs1) ∧
      rename_item envStd fs1 ["etc", "passwd"] "n"
        = (.error "Access denied: Path is outside allowed directories", fs1) ∧
      (pathExists fs1 ["etc", "passwd"] = true →
        ∃ item, get_item_info envStd fs1 ["etc", "passwd"] = .ok item)) :=
  ⟨⟨by decide, by decide, by decide⟩,
   validated_ops_reject_outside_allowlist envStd fs1 ["etc", "passwd"]
     ["etc", "passwd"] ["home", "u"] 1 "x" "n" rfl rfl (by decide) (by decide)⟩

/-- Decoding a run of the ASCII byte 65 under sufficient fuel. -/
theorem utf8DecodeLoop_replicate_A :
    ∀ (fuel n : Nat), n ≤ fuel →
      utf8DecodeLoop fuel (List.replicate n 65) = some (List.replicate n 'A') := by
  intro fuel
  induction fuel with
  | zero =>
    intro n hn
    have h0 : n = 0 := by omega
    subst h0; rfl
  | succ f ih =>
    intro n hn
    cases n with
    | zero => rfl
    | succ k =>
      rw [List.replicate_succ, List.replicate_succ (n := k)]
      rw [utf8DecodeLoop]
      have h1 : utf8DecodeOne 65 (List.replicate k 65)
          = some (Char.ofNat 65, List.replicate k 65) := rfl
      simp only [h1, ih k (by omega)]
      rfl

/-- Decoding a run of the ASCII byte 65 yields the corresponding run of 'A'. -/
theorem utf8DecodeChars_replicate_A (n : Nat) :
    utf8DecodeChars (List.replicate n 65) = some (List.replicate n 'A') := by
  unfold utf8DecodeChars
  exact utf8DecodeLoop_replicate_A _ n (by simp)

/-- C7: for a validated regular file, `preview_file` fails with the too-large
error exactly when the size exceeds 10 x 1024 x 1024 bytes.  The gate sits
before any examination of the content: in the embedding the size test guards
the branch that decodes or dumps the bytes. -/
theorem preview_too_large_iff :
    ∀ (env : Env) (fs : FS) (p c : FsPath) (bytes : List Nat),
      validate_path env p = .ok c →
      fs.node c = some (.file bytes) →
      (preview_file env fs p = .error "File too large for preview (max 10MB)"
        ↔ 10 * 1024 * 1024 < bytes.length) := by
  intro env fs p c bytes hv hnode
  simp only [preview_file, hv, hnode]
  by_cases hlt : bytes.length > 10 * 1024 * 1024
  · simp [hlt]
  · rw [if_neg hlt]
    apply iff_of_false _ hlt
    intro heq
    by_cases ht : get_file_type (extensionOf ((fileNameOf c).getD "Unknown")) = "text"
    · rw [if_pos ht] at heq
      cases hdec : utf8DecodeChars bytes <;> simp [hdec] at heq
    · rw [if_neg ht] at heq
      by_cases hi : get_file_type (extensionOf ((fileNameOf c).getD "Unknown")) = "image"
      · rw [if_pos hi] at heq
        exact absurd heq (by simp)
      · rw [if_neg hi] at heq
        exact absurd heq (by simp)

def fs7 : FS :=
  ⟨fun p =>
    if p = ["home", "u"] then some (.dir ["big.txt", "ok.txt"])
    else if p = ["home", "u", "big.txt"] then
      some (.file (List.replicate (10 * 1024 * 1024 + 1) 65))
    else if p = ["home", "u", "ok.txt"] then
      some (.file (List.replicate (10 * 1024 * 1024) 65))
    else none,
   fun _ => none⟩

/-- A validated text-classified file within the size cap whose bytes decode as
UTF-8 is previewed as text. -/
theorem preview_text_ok :
    ∀ (env : Env) (fs : FS) (p c : FsPath) (bytes : List Nat) (cs : List Char),
      validate_path env p = .ok c →
      fs.node c = some (.file bytes) →
      ¬ bytes.length > 10 * 1024 * 1024 →
      get_file_type (extensionOf ((fileNameOf c).getD "Unknown")) = "text" →
      utf8DecodeChars bytes = some cs →
      preview_file env fs p
        = .ok { file_type := "text", content := String.mk cs,
                size := bytes.length, encoding := "text" } := by
  intro env fs p c bytes cs hv hnode hsize ht hdec
  simp only [preview_file, hv, hnode, hdec]
  rw [if_neg hsize, if_pos ht, ht]

/-- Witness for C7: a 10 MiB + 1 byte text file is rejected as too large; a
10 MiB text file of the same bytes is previewed. -/
theorem preview_too_large_iff_witness :
    validate_path envStd ["home", "u", "big.txt"] = .ok ["home", "u", "big.txt"] ∧
    fs7.node ["home", "u", "big.txt"]
      = some (.file (List.replicate (10 * 1024 * 1024 + 1) 65)) ∧
    preview_file envStd fs7 ["home", "u", "big.txt"]
      = .error "File too large for preview (max 10MB)" ∧
    preview_file envStd fs7 ["home", "u", "ok.txt"]
      = .ok { file_type := "text",
              content := String.mk (List.replicate (10 * 1024 * 1024) 'A'),
              size := 10 * 1024 * 1024, encoding := "text" } := by
  have h1 : validate_path envStd ["home", "u", "big.txt"] = .ok ["home", "u", "big.txt"] := rfl
  have h2 : fs7.node ["home", "u", "big.txt"]
      = some (.file (List.replicate (10 * 1024 * 1024 + 1) 65)) := rfl
  have h1b : validate_path envStd ["home", "u", "ok.txt"] = .ok ["home", "u", "ok.txt"] := rfl
  have h2b : fs7.node ["home", "u", "ok.txt"]
      = some (.file (List.replicate (10 * 1024 * 1024) 65)) := rfl
  refine ⟨h1, h2, ?_, ?_⟩
  · exact (preview_too_large_iff envStd fs7 ["home", "u", "big.txt"] ["home", "u", "big.txt"]
      (List.replicate (10 * 1024 * 1024 + 1) 65) h1 h2).mpr
      (by rw [List.length_replicate]; omega)
  · have h3 := preview_text_ok envStd fs7 ["home", "u", "ok.txt"] ["home", "u", "ok.txt"]
      (List.replicate (10 * 1024 * 1024) 65) (List.replicate (10 * 1024 * 1024) 'A')
      h1b h2b (by rw [List.length_replicate]; omega) rfl
      (utf8DecodeChars_replicate_A (10 * 1024 * 1024))
    rw [List.length_replicate] at h3
    exact h3

/-- A validated regular file larger than the cap is rejected before its
content is examined. -/
theorem preview_file_too_large :
    ∀ (env : Env) (fs : FS) (p c : FsPath) (bytes : List Nat),
      validate_path env p = .ok c →
      fs.node c = some (.file bytes) →
      bytes.length > 10 * 1024 * 1024 →
      preview_file env fs p = .error "File too large for preview (max 10MB)" := by
  intro env fs p c bytes hv hnode hgt
  simp only [preview_file, hv, hnode]
  rw [if_pos hgt]

/-- An invalid leading byte makes the whole decoding fail. -/
theorem utf8DecodeChars_invalid255 (l : List Nat) :
    utf8DecodeChars (255 :: l) = none := rfl

def fs8big : FS :=
  ⟨fun p =>
    if p = ["home", "u"] then some (.dir ["huge.txt"])
    else if p = ["home", "u", "huge.txt"] then
      some (.file (255 :: List.replicate (10 * 1024 * 1024) 65))
    else none,
   fun _ => none⟩

/-- Counterexample to C8 as stated: a readable regular `.txt` file whose bytes
are not valid UTF-8 but whose size exceeds the 10 MiB cap is rejected as too
large instead of producing the binary/hex fallback — the claim needs the size
bound. -/
theorem preview_text_fallback_large_file_cex :
    get_file_type (extensionOf "huge.txt") = "text" ∧
    utf8DecodeChars (255 :: List.replicate (10 * 1024 * 1024) 65) = none ∧
    validate_path envStd ["home", "u", "huge.txt"] = .ok ["home", "u", "huge.txt"] ∧
    fs8big.node ["home", "u", "huge.txt"]
      = some (.file (255 :: List.replicate (10 * 1024 * 1024) 65)) ∧
    preview_file envStd fs8big ["home", "u", "huge.txt"]
      = .error "File too large for preview (max 10MB)" := by
  refine ⟨rfl, utf8DecodeChars_invalid255 _, rfl, rfl, ?_⟩
  exact preview_file_too_large envStd fs8big ["home", "u", "huge.txt"]
    ["home", "u", "huge.txt"] (255 :: List.replicate (10 * 1024 * 1024) 65) rfl rfl
    (by rw [List.length_cons, List.length_replicate]; omega)

/-- C8 amended: for a validated regular file within the 10 MiB cap whose
extension classifies as text but whose bytes are not valid UTF-8, preview
returns the binary/hex fallback: the first min(1024, size) bytes as lowercase
space-separated hex pairs, with `size` still the total byte count. -/
theorem preview_hex_fallback :
    ∀ (env : Env) (fs : FS) (p c : FsPath) (bytes : List Nat),
      validate_path env p = .ok c →
      fs.node c = some (.file bytes) →
      ¬ bytes.length > 10 * 1024 * 1024 →
      get_file_type (extensionOf ((fileNameOf c).getD "Unknown")) = "text" →
      utf8DecodeChars bytes = none →
      preview_file env fs p
        = .ok { file_type := "binary", content := hexDump (bytes.take 1024),
                size := bytes.length, encoding := "hex" } := by
  intro env fs p c bytes hv hnode hsize ht hdec
  simp only [preview_file, hv, hnode, hdec]
  rw [if_neg hsize, if_pos ht]

def fs8 : FS :=
  ⟨fun p =>
    if p = ["home", "u"] then some (.dir ["bad.txt"])
    else if p = ["home", "u", "bad.txt"] then some (.file [255, 65])
    else none,
   fun _ => none⟩

/-- Witness for the amended C8: a 2-byte invalid-UTF-8 `.txt` file previews as
the hex dump "ff 41" with total size 2. -/
theorem preview_hex_fallback_witness :
    validate_path envStd ["home", "u", "bad.txt"] = .ok ["home", "u", "bad.txt"] ∧
    fs8.node ["home", "u", "bad.txt"] = some (.file [255, 65]) ∧
    get_file_type (extensionOf "bad.txt") = "text" ∧
    utf8DecodeChars [255, 65] = none ∧
    hexDump (([255, 65] : List Nat).take 1024) = "ff 41" ∧
    preview_file envStd fs8 ["home", "u", "bad.txt"]
      = .ok { file_type := "binary", content := hexDump (([255, 65] : List Nat).take 1024),
              size := ([255, 65] : List Nat).length, encoding := "hex" } := by
  refine ⟨rfl, rfl, rfl, rfl, rfl, ?_⟩
  exact preview_hex_fallback envStd fs8 ["home", "u", "bad.txt"] ["home", "u", "bad.txt"]
    [255, 65] rfl rfl (by decide) rfl rfl

/-- Splitting at a separator that does not occur yields the whole string as
the single fragment. -/
theorem splitChar_no_sep (sep : Char) (s : List Char) (h : sep ∉ s) :
    splitChar sep s = [s] := by
  induction s with
  | nil => rfl
  | cons a t ih =>
    have ha : ¬ a = sep := fun he => h (he ▸ List.mem_cons_self a t)
    rw [splitChar, if_neg ha, ih (fun ht => h (List.mem_cons_of_mem a ht))]

def fs10 : FS :=
  ⟨fun p =>
    if p = ["home", "u"] then some (.dir ["rs", "README"])
    else if p = ["home", "u", "rs"] then some (.file [102, 110])
    else if p = ["home", "u", "README"] then some (.file [104, 105])
    else none,
   fun _ => none⟩

/-- C10: the extension is the fragment after the last dot, so a dotless
filename is its own (lowercased) extension: a file literally named "rs" or
"json" classifies as text and is previewed, ".bashrc" gets extension
"bashrc", and "README" classifies as unsupported and preview fails. -/
theorem extension_classification :
    (∀ (name : String), '.' ∉ name.data → extensionOf name = lowerStr name) ∧
    get_file_type (extensionOf "rs") = "text" ∧
    get_file_type (extensionOf "json") = "text" ∧
    extensionOf ".bashrc" = "bashrc" ∧
    get_file_type (extensionOf ".bashrc") = "unsupported" ∧
    get_file_type (extensionOf "README") = "unsupported" ∧
    preview_file envStd fs10 ["home", "u", "rs"]
      = .ok { file_type := "text", content := "fn", size := 2, encoding := "text" } ∧
    preview_file envStd fs10 ["home", "u", "README"]
      = .error "File type not supported for preview" := by
  refine ⟨?_, rfl, rfl, rfl, rfl, rfl, rfl, rfl⟩
  intro name h
  unfold extensionOf lowerStr
  rw [splitChar_no_sep '.' name.data h]
  simp

/-- Witness for C10 at the dotless name "README". -/
theorem extension_classification_witness :
    ('.' ∉ ("README" : String).data) ∧ extensionOf "README" = lowerStr "README" :=
  ⟨by decide, extension_classification.1 "README" (by decide)⟩

/-- Comparison flips under argument swap. -/
theorem cmpNatList_gt_iff_lt :
    ∀ (a b : List Nat), cmpNatList a b = .gt ↔ cmpNatList b a = .lt := by
  intro a
  induction a with
  | nil => intro b; cases b <;> simp [cmpNatList]
  | cons x xs ih =>
    intro b
    cases b with
    | nil => simp [cmpNatList]
    | cons y ys =>
      simp only [cmpNatList]
      rcases Nat.lt_trichotomy x y with h | h | h
      · rw [if_pos h, if_neg (by omega : ¬ y < x), if_pos h]
        simp
      · subst h
        rw [if_neg (by omega : ¬ x < x), if_neg (by omega : ¬ x < x),
          if_neg (by omega : ¬ x < x), if_neg (by omega : ¬ x < x)]
        exact ih ys
      · rw [if_neg (by omega : ¬ x < y), if_pos h, if_pos h]
        simp
  
/-- The non-greater relation on comparison keys is transitive. -/
theorem cmpNatList_trans :
    ∀ (a b c : List Nat), cmpNatList a b ≠ .gt → cmpNatList b c ≠ .gt →
      cmpNatList a c ≠ .gt := by
  intro a
  induction a with
  | nil =>
    intro b c _ _
    cases c <;> simp [cmpNatList]
  | cons x xs ih =>
    intro b c h1 h2
    cases b with
    | nil => simp [cmpNatList] at h1
    | cons y ys =>
      cases c with
      | nil => simp [cmpNatList] at h2
      | cons z zs =>
        simp only [cmpNatList] at h1 h2 ⊢
        by_cases hxy : x < y
        · by_cases hyz : y < z
          · rw [if_pos (by omega : x < z)]
            simp
          · rw [if_neg hyz] at h2
            by_cases hzy : z < y
            · rw [if_pos hzy] at h2
              exact absurd rfl h2
            · rw [if_pos (by omega : x < z)]
              simp
        · rw [if_neg hxy] at h1
          by_cases hyx : y < x
          · rw [if_pos hyx] at h1
            exact absurd rfl h1
          · rw [if_neg hyx] at h1
            by_cases hyz : y < z
            · rw [if_pos (by omega : x < z)]
              simp
            · rw [if_neg hyz] at h2
              by_cases hzy : z < y
              · rw [if_pos hzy] at h2
                exact absurd rfl h2
              · rw [if_neg hzy] at h2
                rw [if_neg (by omega : ¬ x < z), if_neg (by omega : ¬ z < x)]
                exact ih ys zs h1 h2

/-- `entryLE` holds exactly when the comparator does not answer greater. -/
theorem entryLE_iff (a b : FileItem) : entryLE a b = true ↔ entryCmp a b ≠ .gt := by
  unfold entryLE
  cases hx : entryCmp a b <;> simp

/-- `entryLE` is transitive. -/
theorem entryLE_trans (a b c : FileItem) :
    entryLE a b → entryLE b c → entryLE a c := by
  intro h1 h2
  rw [entryLE_iff] at h1 h2 ⊢
  unfold entryCmp at h1 h2 ⊢
  cases ha : a.is_dir <;> cases hb : b.is_dir <;> cases hc : c.is_dir <;>
    rw [ha, hb] at h1 <;> rw [hb, hc] at h2
  all_goals first
    | exact absurd rfl h1
    | exact absurd rfl h2
    | exact (show Ordering.lt ≠ Ordering.gt by decide)
    | exact cmpNatList_trans _ _ _ h1 h2

/-- `entryLE` is total. -/
theorem entryLE_total (a b : FileItem) : entryLE a b || entryLE b a := by
  by_cases h : entryCmp a b = .gt
  · have hba : entryCmp b a = .lt := by
      unfold entryCmp at h ⊢
      cases ha : a.is_dir <;> cases hb : b.is_dir <;> rw [ha, hb] at h
      all_goals first
        | exact absurd h (show Ordering.lt ≠ Ordering.gt by decide)
        | exact rfl
        | exact (cmpNatList_gt_iff_lt _ _).mp h
    have h1 : entryLE a b = false := by unfold entryLE; rw [h]
    have h2 : entryLE b a = true := by unfold entryLE; rw [hba]
    rw [h1, h2]
    rfl
  · have h1 : entryLE a b = true := entryLE_iff a b |>.mpr h
    rw [h1]
    rfl

instance : IsTrans FileItem entryRel := ⟨fun a b c => entryLE_trans a b c⟩

instance : IsTotal FileItem entryRel :=
  ⟨fun a b => by
    have h := entryLE_total a b
    rcases Bool.or_eq_true_iff.mp h with h1 | h1
    · exact Or.inl h1
    · exact Or.inr h1⟩

/-- C9: the entry sequences returned by `read_directory` and `search_files`
are sorted by the total preorder `entryRel` (directories before files, then
case-insensitive name comparison), and the sort they apply is a stable
permutation: equal-key pairs keep their relative input order. -/
theorem listings_sorted :
    (∀ (env : Env) (fs : FS) (p : FsPath) (r : DirectoryContents),
      read_directory env fs p = .ok r → r.items.Sorted entryRel) ∧
    (∀ (env : Env) (fs : FS) (fuel : Nat) (d : FsPath) (q : String)
      (res : List FileItem),
      search_files env fs fuel d q = .ok res → res.Sorted entryRel) ∧
    (∀ l : List FileItem, List.Perm (sortEntries l) l) ∧
    (∀ (l : List FileItem) (a b : FileItem), entryRel a b →
      List.Sublist [a, b] l → List.Sublist [a, b] (sortEntries l)) := by
  refine ⟨?_, ?_, ?_, ?_⟩
  · intro env fs p r h
    unfold read_directory at h
    cases hv : validate_path env p with
    | error e => rw [hv] at h; exact absurd h (by simp)
    | ok dir =>
      rw [hv] at h
      by_cases hd : isDir fs dir
      · simp only [hd, Bool.not_true, Bool.false_eq_true, if_false] at h
        cases h
        exact List.sorted_insertionSort entryRel _
      · rw [Bool.not_eq_true] at hd
        simp only [hd, Bool.not_false, if_true] at h
        exact absurd h (by simp)
  · intro env fs fuel d q res h
    unfold search_files at h
    cases hv : validate_path env d with
    | error e => rw [hv] at h; exact absurd h (by simp)
    | ok dir =>
      rw [hv] at h
      by_cases hd : isDir fs dir
      · simp only [hd, Bool.not_true, Bool.false_eq_true, if_false] at h
        by_cases hq : (trimChars q.data).isEmpty
        · simp only [hq, if_true] at h
          exact absurd h (by simp)
        · simp only [hq, if_false] at h
          cases h
          exact List.sorted_insertionSort entryRel _
      · rw [Bool.not_eq_true] at hd
        simp only [hd, Bool.not_false, if_true] at h
        exact absurd h (by simp)
  · intro l
    exact List.perm_insertionSort entryRel l
  · intro l a b hab hsub
    exact List.pair_sublist_insertionSort hab hsub

def fs9 : FS :=
  ⟨fun p =>
    if p = ["home", "u"] then some (.dir ["b.txt", "A", "a.txt"])
    else if p = ["home", "u", "b.txt"] then some (.file [98])
    else if p = ["home", "u", "A"] then some (.dir [])
    else if p = ["home", "u", "a.txt"] then some (.file [97])
    else none,
   fun _ => none⟩

/-- Witness for C9: listing a directory whose `read_dir` order is
`b.txt, A, a.txt` (A a subdirectory) yields the order `A, a.txt, b.txt`. -/
theorem listings_sorted_witness :
    read_directory envStd fs9 ["home", "u"]
      = .ok { current_path := "/home/u", parent_path := some "/home",
              items := [mkItem fs9 ["home", "u"] "A", mkItem fs9 ["home", "u"] "a.txt",
                        mkItem fs9 ["home", "u"] "b.txt"] } ∧
    ([mkItem fs9 ["home", "u"] "A", mkItem fs9 ["home", "u"] "a.txt",
      mkItem fs9 ["home", "u"] "b.txt"].map FileItem.name = ["A", "a.txt", "b.txt"]) ∧
    ([mkItem fs9 ["home", "u"] "A", mkItem fs9 ["home", "u"] "a.txt",
      mkItem fs9 ["home", "u"] "b.txt"] : List FileItem).Sorted entryRel := by
  have h : read_directory envStd fs9 ["home", "u"]
      = .ok { current_path := "/home/u", parent_path := some "/home",
              items := [mkItem fs9 ["home", "u"] "A", mkItem fs9 ["home", "u"] "a.txt",
                        mkItem fs9 ["home", "u"] "b.txt"] } := by rfl
  exact ⟨h, rfl, listings_sorted.1 envStd fs9 ["home", "u"] _ h⟩

/-- C4 amended: once at least 1000 results have accumulated, the traversal
loop never descends (the `descend` continuation is not invoked on any child),
but it still appends every matching child of the directory it is already
iterating — so the total may exceed 1000. -/
theorem search_no_descent_at_cap :
    ∀ (fs : FS) (q : List Char) (descend : FsPath → List FileItem → List FileItem)
      (dir : FsPath) (names : List String) (acc : List FileItem),
      1000 ≤ acc.length →
      searchDirStep fs q descend dir names acc
        = acc ++ names.filterMap (fun name =>
            if containsSub (lowerChars name.data) q then some (mkItem fs dir name)
            else none) := by
  intro fs q descend dir names
  induction names with
  | nil =>
    intro acc h
    simp [searchDirStep]
  | cons name rest ih =>
    intro acc h
    simp only [searchDirStep]
    by_cases hm : containsSub (lowerChars name.data) q = true
    · rw [if_pos hm]
      have hlen : ¬ (acc ++ [mkItem fs dir name]).length < 1000 := by
        rw [List.length_append]
        omega
      have hrec : searchDirStep fs q descend dir rest (acc ++ [mkItem fs dir name])
          = (acc ++ [mkItem fs dir name]) ++ rest.filterMap (fun n =>
              if containsSub (lowerChars n.data) q then some (mkItem fs dir n)
              else none) := by
        apply ih
        rw [List.length_append]
        omega
      by_cases hdir : isDir fs (dir ++ [name]) = true
      · rw [if_pos hdir, if_neg hlen, hrec, List.filterMap_cons, if_pos hm]
        simp
      · rw [if_neg hdir, hrec, List.filterMap_cons, if_pos hm]
        simp
    · rw [if_neg hm]
      by_cases hdir : isDir fs (dir ++ [name]) = true
      · by_cases hlen : acc.length < 1000
        · omega
        · rw [if_pos hdir, if_neg hlen, ih acc h, List.filterMap_cons, if_neg hm]
      · rw [if_neg hdir, ih acc h, List.filterMap_cons, if_neg hm]

/-- When no child is a directory and every child name matches the query, one
traversal step appends every child, with no cap on the appends. -/
theorem searchDirStep_all_match_no_dirs :
    ∀ (fs : FS) (q : List Char) (descend : FsPath → List FileItem → List FileItem)
      (dir : FsPath) (names : List String) (acc : List FileItem),
      (∀ name ∈ names, containsSub (lowerChars name.data) q = true) →
      (∀ name ∈ names, isDir fs (dir ++ [name]) = false) →
      searchDirStep fs q descend dir names acc = acc ++ names.map (mkItem fs dir) := by
  intro fs q descend dir names
  induction names with
  | nil =>
    intro acc _ _
    simp [searchDirStep]
  | cons name rest ih =>
    intro acc hm hd
    simp only [searchDirStep]
    rw [if_pos (hm name (List.mem_cons_self name rest))]
    rw [if_neg (by rw [hd name (List.mem_cons_self name rest)]; simp)]
    rw [ih (acc ++ [mkItem fs dir name])
      (fun n hn => hm n (List.mem_cons_of_mem name hn))
      (fun n hn => hd n (List.mem_cons_of_mem name hn))]
    simp

/-- The 1001 child names of the flat counterexample directory. -/
def bigNames : List String := (List.range 1001).map (fun i => "f" ++ Nat.repr i)

def fs4 : FS :=
  ⟨fun p =>
    match p with
    | ["home", "u"] => some (.dir bigNames)
    | ["home", "u", n] => if n.startsWith "f" then some (.file []) else none
    | _ => none,
   fun _ => none⟩

theorem fs4_no_dirs : ∀ name ∈ bigNames, isDir fs4 (["home", "u"] ++ [name]) = false := by
  intro name _
  by_cases h : name.startsWith "f" = true <;> simp [isDir, fs4, h]

theorem bigNames_match : ∀ name ∈ bigNames, containsSub (lowerChars name.data) ['f'] = true := by
  intro name hn
  simp only [bigNames, List.mem_map] at hn
  obtain ⟨i, _, rfl⟩ := hn
  rw [String.data_append]
  rfl

set_option maxRecDepth 8000 in
/-- Counterexample to C4 as stated: a single directory holding 1001 children
whose names all match the query makes `search_files` return 1001 entries — the
1000 cap only gates descent into subdirectories, never the appends within a
directory already being iterated. -/
theorem search_exceeds_1000_on_flat_tree :
    1000 < bigNames.length ∧
    search_files envStd fs4 1 ["home", "u"] "f"
      = .ok (sortEntries (bigNames.map (mkItem fs4 ["home", "u"]))) ∧
    (sortEntries (bigNames.map (mkItem fs4 ["home", "u"]))).length = 1001 := by
  refine ⟨by simp [bigNames], ?_, ?_⟩
  · have hstep : searchDirStep fs4 ['f'] (searchGo fs4 ['f'] 0) ["home", "u"] bigNames []
        = [] ++ bigNames.map (mkItem fs4 ["home", "u"]) :=
      searchDirStep_all_match_no_dirs fs4 ['f'] (searchGo fs4 ['f'] 0) ["home", "u"]
        bigNames [] bigNames_match fs4_no_dirs
    unfold search_files
    have hv : validate_path envStd ["home", "u"] = .ok ["home", "u"] := rfl
    rw [hv]
    show (if (!isDir fs4 ["home", "u"]) = true
        then (Except.error "Path is not a directory" : Except String (List FileItem))
        else if (trimChars "f".data).isEmpty = true then Except.error "Search query cannot be empty"
        else Except.ok (sortEntries (searchGo fs4 (lowerChars "f".data) 1 ["home", "u"] [])))
      = Except.ok (sortEntries (bigNames.map (mkItem fs4 ["home", "u"])))
    have hd : isDir fs4 ["home", "u"] = true := rfl
    rw [hd]
    simp only [Bool.not_true, Bool.false_eq_true, if_false]
    have hq : (trimChars "f".data).isEmpty = false := rfl
    rw [hq]
    simp only [Bool.false_eq_true, if_false]
    have hql : lowerChars "f".data = ['f'] := rfl
    rw [hql]
    have hone : searchGo fs4 ['f'] 1 ["home", "u"] []
        = searchDirStep fs4 ['f'] (searchGo fs4 ['f'] 0) ["home", "u"]
            (childrenOf fs4 ["home", "u"]) [] := rfl
    rw [hone]
    have hch : childrenOf fs4 ["home", "u"] = bigNames := rfl
    rw [hch, hstep, List.nil_append]
  · unfold sortEntries
    rw [List.length_insertionSort, List.length_map]
    simp [bigNames]

def dummyItem : FileItem := ⟨"x", "/x", false, none, none, "document"⟩

def fsW : FS :=
  ⟨fun p =>
    if p = ["d"] then some (.dir ["sub"])
    else if p = ["d", "sub"] then some (.dir ["subfile"])
    else if p = ["d", "sub", "subfile"] then some (.file [])
    else none,
   fun _ => none⟩

/-- Witness for the amended C4: with 1000 results already accumulated, the
matching subdirectory `sub` is still appended but its own matching child is
never visited. -/
theorem search_no_descent_at_cap_witness :
    1000 ≤ (List.replicate 1000 dummyItem).length ∧
    searchDirStep fsW ['s'] (searchGo fsW ['s'] 5) ["d"] ["sub"]
        (List.replicate 1000 dummyItem)
      = List.replicate 1000 dummyItem ++ [mkItem fsW ["d"] "sub"] := by
  have hlen : 1000 ≤ (List.replicate 1000 dummyItem).length := by
    rw [List.length_replicate]
  refine ⟨hlen, ?_⟩
  rw [search_no_descent_at_cap fsW ['s'] (searchGo fsW ['s'] 5) ["d"] ["sub"]
    (List.replicate 1000 dummyItem) hlen]
  rfl
